import Mathlib

/-!
Verification of the pagination-range calculator of DR-Lib
(`hooks/usePagination.ts`) and of the two page-jump click handlers that
consume it (`src/app/main/main-page-client.tsx` and
`src/app/catalog/catalog-page-client.tsx`).

The hook's entries are JavaScript values `number | string`, where the only
string ever produced is the `DOTS` marker; we model an entry as an inductive
type with a numeric constructor and a dots constructor.  JavaScript integer
arithmetic on the small values involved is exact, so numbers are modelled by
`Int`; `Math.ceil(a / b)` and `Math.round(x)` are modelled by the exact
integer formulas they compute on integer inputs.
-/

namespace DRLib

/-- An entry of the pagination range: a page number or the `DOTS` marker. -/
inductive PageEntry where
  | num (n : Int)
  | dots
deriving DecidableEq

/-- The ellipsis marker: `export const DOTS = "..."`. -/
def DOTS : PageEntry := PageEntry.dots

/-- Source helper: `const range = (start, end) =>
Array.from(\x7blength: end - start + 1\x7d, (_, idx) => idx + start)`;
`Array.from` clamps a negative length to `0`, which `Int.toNat` models. -/
def range (start stop : Int) : List Int :=
  (List.range (stop - start + 1).toNat).map (fun (idx : Nat) => (idx : Int) + start)

/-- Models `Math.ceil(a / b)` for integer `a`, `b` (`b ≠ 0`): the exact ceiling
of the rational quotient, i.e. the negated floor division of the negation. -/
def jsCeilDiv (a b : Int) : Int := -(Int.fdiv (-a) b)

/-- Source: `const totalPageCount = Math.ceil(totalCount / pageSize)`. -/
def totalPageCount (totalCount pageSize : Int) : Int := jsCeilDiv totalCount pageSize

/-- Source: `const totalPageNumbersToShow = 5 + 2 * siblingCount`. -/
def totalPageNumbersToShow (siblingCount : Int) : Int := 5 + 2 * siblingCount

/-- Source: `const leftSiblingIndex = Math.max(currentPage - siblingCount, 1)`. -/
def leftSiblingIndex (siblingCount currentPage : Int) : Int :=
  max (currentPage - siblingCount) 1

/-- Source: `const rightSiblingIndex = Math.min(currentPage + siblingCount, totalPageCount)`. -/
def rightSiblingIndex (totalCount pageSize siblingCount currentPage : Int) : Int :=
  min (currentPage + siblingCount) (totalPageCount totalCount pageSize)

/-- Source: `const shouldShowLeftDots = leftSiblingIndex > 2`. -/
def shouldShowLeftDots (siblingCount currentPage : Int) : Prop :=
  2 < leftSiblingIndex siblingCount currentPage

instance (siblingCount currentPage : Int) :
    Decidable (shouldShowLeftDots siblingCount currentPage) := by
  unfold shouldShowLeftDots; infer_instance

/-- Source: `const shouldShowRightDots = rightSiblingIndex < totalPageCount - 1`. -/
def shouldShowRightDots (totalCount pageSize siblingCount currentPage : Int) : Prop :=
  rightSiblingIndex totalCount pageSize siblingCount currentPage <
    totalPageCount totalCount pageSize - 1

instance (totalCount pageSize siblingCount currentPage : Int) :
    Decidable (shouldShowRightDots totalCount pageSize siblingCount currentPage) := by
  unfold shouldShowRightDots; infer_instance

/-- The body of `usePagination` (the `useMemo` computation), translated
branch by branch: Case 1 (`totalPageNumbersToShow >= totalPageCount`) returns
`range(1, totalPageCount)`; Case 2 (`!shouldShowLeftDots && shouldShowRightDots`)
returns `[...range(1, 3 + 2*siblingCount), DOTS, lastPageIndex]`; Case 3
(`shouldShowLeftDots && !shouldShowRightDots`) returns
`[firstPageIndex, DOTS, ...range(totalPageCount - (3 + 2*siblingCount) + 1, totalPageCount)]`;
Case 4 (`shouldShowLeftDots && shouldShowRightDots`) returns
`[firstPageIndex, DOTS, ...range(leftSiblingIndex, rightSiblingIndex), DOTS, lastPageIndex]`;
the trailing fallback returns `range(1, totalPageCount)`. -/
def usePagination (totalCount pageSize siblingCount currentPage : Int) : List PageEntry :=
  if totalPageCount totalCount pageSize ≤ totalPageNumbersToShow siblingCount then
    (range 1 (totalPageCount totalCount pageSize)).map PageEntry.num
  else if ¬ shouldShowLeftDots siblingCount currentPage ∧
      shouldShowRightDots totalCount pageSize siblingCount currentPage then
    (range 1 (3 + 2 * siblingCount)).map PageEntry.num ++
      [DOTS, PageEntry.num (totalPageCount totalCount pageSize)]
  else if shouldShowLeftDots siblingCount currentPage ∧
      ¬ shouldShowRightDots totalCount pageSize siblingCount currentPage then
    [PageEntry.num 1, DOTS] ++
      (range (totalPageCount totalCount pageSize - (3 + 2 * siblingCount) + 1)
        (totalPageCount totalCount pageSize)).map PageEntry.num
  else if shouldShowLeftDots siblingCount currentPage ∧
      shouldShowRightDots totalCount pageSize siblingCount currentPage then
    [PageEntry.num 1, DOTS] ++
      (range (leftSiblingIndex siblingCount currentPage)
        (rightSiblingIndex totalCount pageSize siblingCount currentPage)).map PageEntry.num ++
      [DOTS, PageEntry.num (totalPageCount totalCount pageSize)]
  else
    (range 1 (totalPageCount totalCount pageSize)).map PageEntry.num

/-- Projection used by the handlers as `typeof e === "number"`: the numeric
value of an entry, when there is one. -/
def entryNum : PageEntry → Option Int
  | PageEntry.num n => some n
  | PageEntry.dots => none

/-- The subsequence of numeric entries of a pagination range. -/
def entryNums (l : List PageEntry) : List Int := l.filterMap entryNum

/-- Index of the first ellipsis entry, as computed by the click handlers with
`paginationRange.findIndex(p => p === DOTS)`; `List.findIdx` returns
`l.length` when no entry matches, a case the handlers only reach for an
ellipsis click and that our theorems cover anyway. -/
def dotsIndex (l : List PageEntry) : Nat :=
  l.findIdx fun e => decide (e = DOTS)

/-- The handlers' backward scan
`for (let i = currentIndex - 1; i >= 0; i--)
   if (typeof range[i] === "number") return range[i]`:
the argument is the number of indices still to inspect, so
`scanBackNumeric l d c` inspects indices `c - 1, ..., 0` and yields the
default `d` (`prevNumeric = 1`) when none holds a number. -/
def scanBackNumeric (l : List PageEntry) (d : Int) : Nat → Int
  | 0 => d
  | i + 1 =>
    match l[i]? with
    | some (PageEntry.num n) => n
    | some PageEntry.dots => scanBackNumeric l d i
    | none => scanBackNumeric l d i

/-- The handlers' forward scan
`for (let i = currentIndex + 1; i < range.length; i++)
   if (typeof range[i] === "number") return range[i]`,
run on the suffix after the ellipsis: the first numeric entry, else the
default (`nextNumeric = totalPages`). -/
def scanFwdNumeric : List PageEntry → Int → Int
  | [], d => d
  | PageEntry.num n :: _, _ => n
  | PageEntry.dots :: rest, d => scanFwdNumeric rest d

/-- Models `Math.round(x / 2)` for an integer `x`: rounding half toward plus
infinity, that is `⌊(x + 1) / 2⌋`. -/
def jsRoundHalf (x : Int) : Int := Int.fdiv (x + 1) 2

/-- The `DOTS` branch of `handlePageChange` in `main-page-client.tsx`:
`targetPage = Math.round((prevNumeric + nextNumeric) / 2)` with `prevNumeric`
and `nextNumeric` scanned around the first `DOTS` entry. -/
def handlePageChangeTarget (paginationRange : List PageEntry) (totalPages : Int) : Int :=
  jsRoundHalf (scanBackNumeric paginationRange 1 (dotsIndex paginationRange) +
    scanFwdNumeric (paginationRange.drop (dotsIndex paginationRange + 1)) totalPages)

/-- The `DOTS` branch of `handleImagePageChange` in `catalog-page-client.tsx`:
`targetPage = nextNumeric < totalImagePages ? prevNumeric + 1 : prevNumeric + 1`
(both arms of the source's conditional are identical). -/
def handleImagePageChangeTarget (imagePaginationRange : List PageEntry)
    (totalImagePages : Int) : Int :=
  if scanFwdNumeric (imagePaginationRange.drop (dotsIndex imagePaginationRange + 1))
      totalImagePages < totalImagePages then
    scanBackNumeric imagePaginationRange 1 (dotsIndex imagePaginationRange) + 1
  else
    scanBackNumeric imagePaginationRange 1 (dotsIndex imagePaginationRange) + 1

/-- Following the claim's words: the numeric entry neighboring the first
ellipsis on its left (the last numeric entry before it), defaulting to 1. -/
def specPrevNeighbor (l : List PageEntry) : Int :=
  (((l.take (dotsIndex l)).reverse).findSome? entryNum).getD 1

/-- Following the claim's words: the numeric entry neighboring the first
ellipsis on its right (the first numeric entry after it), defaulting to
`totalPages`. -/
def specNextNeighbor (l : List PageEntry) (totalPages : Int) : Int :=
  ((l.drop (dotsIndex l + 1)).findSome? entryNum).getD totalPages

/-- Following the claim's words: the rounded average of the two numeric
entries neighboring the first ellipsis. -/
def specJumpMidpoint (l : List PageEntry) (totalPages : Int) : Int :=
  jsRoundHalf (specPrevNeighbor l + specNextNeighbor l totalPages)

example : usePagination 2400 24 4 50 =
    [PageEntry.num 1, DOTS, PageEntry.num 46, PageEntry.num 47, PageEntry.num 48,
     PageEntry.num 49, PageEntry.num 50, PageEntry.num 51, PageEntry.num 52,
     PageEntry.num 53, PageEntry.num 54, DOTS, PageEntry.num 100] := by decide

example : usePagination 240 24 5 4 =
    [PageEntry.num 1, PageEntry.num 2, PageEntry.num 3, PageEntry.num 4, PageEntry.num 5,
     PageEntry.num 6, PageEntry.num 7, PageEntry.num 8, PageEntry.num 9, PageEntry.num 10] := by
  decide

example : usePagination 2400 24 4 1 =
    (List.map PageEntry.num [1,2,3,4,5,6,7,8,9,10,11]) ++ [DOTS, PageEntry.num 100] := by decide

example : usePagination 2400 24 4 100 =
    [PageEntry.num 1, DOTS] ++ List.map PageEntry.num [90,91,92,93,94,95,96,97,98,99,100] := by
  decide

example : usePagination 0 24 4 1 = [] := by decide

/-! ### Lemmas about `range` -/

theorem range_eq_nil (s e : Int) (h : e < s) : range s e = [] := by
  unfold range
  have h1 : (e - s + 1).toNat = 0 := by omega
  simp [h1]

theorem range_cons (s e : Int) (h : s ≤ e) : range s e = s :: range (s + 1) e := by
  unfold range
  have h1 : (e - s + 1).toNat = (e - (s + 1) + 1).toNat + 1 := by omega
  rw [h1, List.range_succ_eq_map, List.map_cons, List.map_map]
  congr 1
  · simp
  · congr 1
    funext idx
    simp only [Function.comp_apply]
    omega

theorem range_concat (s e : Int) (h : s ≤ e) : range s e = range s (e - 1) ++ [e] := by
  unfold range
  have h1 : (e - s + 1).toNat = (e - 1 - s + 1).toNat + 1 := by omega
  rw [h1, List.range_succ, List.map_append]
  congr 1
  simp only [List.map_cons, List.map_nil]
  congr 1
  omega

theorem mem_range_iff (s e x : Int) : x ∈ range s e ↔ s ≤ x ∧ x ≤ e := by
  unfold range
  simp only [List.mem_map, List.mem_range]
  constructor
  · rintro ⟨i, hi, rfl⟩
    omega
  · rintro ⟨h1, h2⟩
    exact ⟨(x - s).toNat, by omega, by omega⟩

theorem range_pairwise (s e : Int) : List.Pairwise (· < ·) (range s e) := by
  unfold range
  exact List.Pairwise.map _ (fun a b hab => by omega) (List.pairwise_lt_range _)

theorem range_chain (s e : Int) : List.Chain' (· < ·) (range s e) :=
  (range_pairwise s e).chain'

theorem range_ne_nil (s e : Int) (h : s ≤ e) : range s e ≠ [] := by
  rw [range_cons s e h]
  simp

theorem range_head (s e : Int) (h : s ≤ e) : (range s e).head? = some s := by
  rw [range_cons s e h]
  rfl

theorem range_getLast (s e : Int) (h : s ≤ e) : (range s e).getLast? = some e := by
  rw [range_concat s e h]
  simp

/-! ### Branch-unfolding lemmas for `usePagination` -/

theorem usePagination_case1 (totalCount pageSize siblingCount currentPage : Int)
    (h : totalPageCount totalCount pageSize ≤ totalPageNumbersToShow siblingCount) :
    usePagination totalCount pageSize siblingCount currentPage =
      (range 1 (totalPageCount totalCount pageSize)).map PageEntry.num := by
  unfold usePagination
  rw [if_pos h]

theorem usePagination_caseA (totalCount pageSize siblingCount currentPage : Int)
    (h : totalPageNumbersToShow siblingCount < totalPageCount totalCount pageSize)
    (hL : ¬ shouldShowLeftDots siblingCount currentPage)
    (hR : shouldShowRightDots totalCount pageSize siblingCount currentPage) :
    usePagination totalCount pageSize siblingCount currentPage =
      (range 1 (3 + 2 * siblingCount)).map PageEntry.num ++
        [DOTS, PageEntry.num (totalPageCount totalCount pageSize)] := by
  unfold usePagination
  rw [if_neg (not_le.mpr h), if_pos ⟨hL, hR⟩]

theorem usePagination_caseB (totalCount pageSize siblingCount currentPage : Int)
    (h : totalPageNumbersToShow siblingCount < totalPageCount totalCount pageSize)
    (hL : shouldShowLeftDots siblingCount currentPage)
    (hR : ¬ shouldShowRightDots totalCount pageSize siblingCount currentPage) :
    usePagination totalCount pageSize siblingCount currentPage =
      [PageEntry.num 1, DOTS] ++
        (range (totalPageCount totalCount pageSize - (3 + 2 * siblingCount) + 1)
          (totalPageCount totalCount pageSize)).map PageEntry.num := by
  unfold usePagination
  rw [if_neg (not_le.mpr h), if_neg (fun hc => hc.1 hL), if_pos ⟨hL, hR⟩]

theorem usePagination_caseC (totalCount pageSize siblingCount currentPage : Int)
    (h : totalPageNumbersToShow siblingCount < totalPageCount totalCount pageSize)
    (hL : shouldShowLeftDots siblingCount currentPage)
    (hR : shouldShowRightDots totalCount pageSize siblingCount currentPage) :
    usePagination totalCount pageSize siblingCount currentPage =
      [PageEntry.num 1, DOTS] ++
        (range (leftSiblingIndex siblingCount currentPage)
          (rightSiblingIndex totalCount pageSize siblingCount currentPage)).map PageEntry.num ++
        [DOTS, PageEntry.num (totalPageCount totalCount pageSize)] := by
  unfold usePagination
  rw [if_neg (not_le.mpr h), if_neg (fun hc => hc.1 hL), if_neg (fun hc => hc.2 hR),
    if_pos ⟨hL, hR⟩]

theorem usePagination_fallback (totalCount pageSize siblingCount currentPage : Int)
    (h : totalPageNumbersToShow siblingCount < totalPageCount totalCount pageSize)
    (hL : ¬ shouldShowLeftDots siblingCount currentPage)
    (hR : ¬ shouldShowRightDots totalCount pageSize siblingCount currentPage) :
    usePagination totalCount pageSize siblingCount currentPage =
      (range 1 (totalPageCount totalCount pageSize)).map PageEntry.num := by
  unfold usePagination
  rw [if_neg (not_le.mpr h), if_neg (fun hc => hR hc.2), if_neg (fun hc => hL hc.1),
    if_neg (fun hc => hL hc.1)]

/-! ### Structure helpers for pagination ranges -/

theorem map_num_head (s e : Int) (h : s ≤ e) :
    ((range s e).map PageEntry.num).head? = some (PageEntry.num s) := by
  rw [range_cons s e h]
  rfl

theorem map_num_getLast (s e : Int) (h : s ≤ e) :
    ((range s e).map PageEntry.num).getLast? = some (PageEntry.num e) := by
  rw [range_concat s e h, List.map_append]
  exact List.getLast?_concat _

theorem getLast_concat2 (l : List PageEntry) (a b : PageEntry) :
    (l ++ [a, b]).getLast? = some b := by
  have h : l ++ [a, b] = (l ++ [a]) ++ [b] := by simp
  rw [h]
  exact List.getLast?_concat _

theorem getLast_append_range (l : List PageEntry) (s e : Int) (h : s ≤ e) :
    (l ++ (range s e).map PageEntry.num).getLast? = some (PageEntry.num e) := by
  rw [range_concat s e h, List.map_append, ← List.append_assoc]
  exact List.getLast?_concat _

theorem entryNums_append (l l' : List PageEntry) :
    entryNums (l ++ l') = entryNums l ++ entryNums l' := by
  simp [entryNums]

theorem entryNums_map_num (l : List Int) : entryNums (l.map PageEntry.num) = l := by
  induction l with
  | nil => rfl
  | cons a t ih =>
    simp only [List.map_cons, entryNums, List.filterMap_cons, entryNum]
    exact congrArg (List.cons a) ih

theorem dots_not_mem_map_num (l : List Int) : DOTS ∉ l.map PageEntry.num := by
  simp [DOTS, List.mem_map]

theorem chain'_total {α : Type} {R : α → α → Prop} (h : ∀ a b, R a b) (l : List α) :
    List.Chain' R l := by
  induction l with
  | nil => exact List.chain'_nil
  | cons a t ih =>
    cases t with
    | nil => exact List.chain'_singleton a
    | cons b u => exact List.chain'_cons.mpr ⟨h a b, ih⟩

theorem noDD_map_num (l : List Int) :
    List.Chain' (fun a b => ¬(a = DOTS ∧ b = DOTS)) (l.map PageEntry.num) := by
  rw [List.chain'_map]
  refine chain'_total (fun a b hc => ?_) _
  exact PageEntry.noConfusion hc.1

/-! ### Claim theorems -/

/-- C1: with `totalPages = ceil(totalCount/pageSize) > 5 + 2*siblingCount`,
`max(currentPage - siblingCount, 1) > 2` and
`min(currentPage + siblingCount, totalPages) < totalPages - 1`, `usePagination`
returns exactly `1, DOTS, leftSibling, ..., rightSibling, DOTS, totalPages`. -/
theorem usePagination_both_dots (totalCount pageSize siblingCount currentPage : Int)
    (htc : 0 ≤ totalCount) (hps : 0 < pageSize) (hsib : 0 ≤ siblingCount)
    (hcp : 0 < currentPage)
    (hspan : 5 + 2 * siblingCount < totalPageCount totalCount pageSize)
    (hleft : 2 < max (currentPage - siblingCount) 1)
    (hright : min (currentPage + siblingCount) (totalPageCount totalCount pageSize) <
      totalPageCount totalCount pageSize - 1) :
    usePagination totalCount pageSize siblingCount currentPage =
      [PageEntry.num 1, DOTS] ++
        (range (max (currentPage - siblingCount) 1)
          (min (currentPage + siblingCount) (totalPageCount totalCount pageSize))).map
            PageEntry.num ++
        [DOTS, PageEntry.num (totalPageCount totalCount pageSize)] :=
  usePagination_caseC totalCount pageSize siblingCount currentPage hspan hleft hright

/-- C1 witness: `totalCount=2400, pageSize=24, siblingCount=4, currentPage=50`
yields `[1, DOTS, 46, 47, 48, 49, 50, 51, 52, 53, 54, DOTS, 100]`. -/
theorem usePagination_both_dots_witness :
    usePagination 2400 24 4 50 =
      [PageEntry.num 1, DOTS, PageEntry.num 46, PageEntry.num 47, PageEntry.num 48,
       PageEntry.num 49, PageEntry.num 50, PageEntry.num 51, PageEntry.num 52,
       PageEntry.num 53, PageEntry.num 54, DOTS, PageEntry.num 100] := by
  have h := usePagination_both_dots 2400 24 4 50 (by decide) (by decide) (by decide)
    (by decide) (by decide) (by decide) (by decide)
  rw [h]
  rfl

/-- C2: when `totalPages = ceil(totalCount/pageSize) ≤ 5 + 2*siblingCount`,
`usePagination` returns exactly `[1, 2, ..., totalPages]`, with no ellipsis
entry; with `totalCount = 0` the result is empty (see the witness). -/
theorem usePagination_small (totalCount pageSize siblingCount currentPage : Int)
    (htc : 0 ≤ totalCount) (hps : 0 < pageSize) (hsib : 0 ≤ siblingCount)
    (hcp : 0 < currentPage)
    (hspan : totalPageCount totalCount pageSize ≤ 5 + 2 * siblingCount) :
    usePagination totalCount pageSize siblingCount currentPage =
      (range 1 (totalPageCount totalCount pageSize)).map PageEntry.num ∧
    DOTS ∉ usePagination totalCount pageSize siblingCount currentPage := by
  have h := usePagination_case1 totalCount pageSize siblingCount currentPage hspan
  refine ⟨h, ?_⟩
  rw [h]
  simp [DOTS, List.mem_map]

/-- C2 witness: `totalCount = 0` gives the empty sequence. -/
theorem usePagination_small_witness :
    usePagination 0 24 4 1 = [] ∧ DOTS ∉ usePagination 0 24 4 1 := by
  have h := usePagination_small 0 24 4 1 (by decide) (by decide) (by decide) (by decide)
    (by decide)
  exact ⟨by rw [h.1]; rfl, h.2⟩

/-- C3: with `totalPages > 5 + 2*siblingCount`, no left dots
(`max(currentPage - siblingCount, 1) ≤ 2`) and right dots
(`min(currentPage + siblingCount, totalPages) < totalPages - 1`), `usePagination`
returns exactly `[1, 2, ..., 3 + 2*siblingCount, DOTS, totalPages]`. -/
theorem usePagination_left_window (totalCount pageSize siblingCount currentPage : Int)
    (htc : 0 ≤ totalCount) (hps : 0 < pageSize) (hsib : 0 ≤ siblingCount)
    (hcp : 0 < currentPage)
    (hspan : 5 + 2 * siblingCount < totalPageCount totalCount pageSize)
    (hleft : max (currentPage - siblingCount) 1 ≤ 2)
    (hright : min (currentPage + siblingCount) (totalPageCount totalCount pageSize) <
      totalPageCount totalCount pageSize - 1) :
    usePagination totalCount pageSize siblingCount currentPage =
      (range 1 (3 + 2 * siblingCount)).map PageEntry.num ++
        [DOTS, PageEntry.num (totalPageCount totalCount pageSize)] :=
  usePagination_caseA totalCount pageSize siblingCount currentPage hspan
    (not_lt.mpr hleft) hright

/-- C3 witness: `currentPage = 1` with `totalPages = 100` and `siblingCount = 4`
yields `[1..11, DOTS, 100]`. -/
theorem usePagination_left_window_witness :
    usePagination 2400 24 4 1 =
      [PageEntry.num 1, PageEntry.num 2, PageEntry.num 3, PageEntry.num 4, PageEntry.num 5,
       PageEntry.num 6, PageEntry.num 7, PageEntry.num 8, PageEntry.num 9, PageEntry.num 10,
       PageEntry.num 11, DOTS, PageEntry.num 100] := by
  have h := usePagination_left_window 2400 24 4 1 (by decide) (by decide) (by decide)
    (by decide) (by decide) (by decide) (by decide)
  rw [h]
  rfl

/-- C4: with `totalPages > 5 + 2*siblingCount`, left dots
(`max(currentPage - siblingCount, 1) > 2`) and no right dots
(`min(currentPage + siblingCount, totalPages) ≥ totalPages - 1`), `usePagination`
returns exactly `[1, DOTS, totalPages - (3 + 2*siblingCount) + 1, ..., totalPages]`. -/
theorem usePagination_right_window (totalCount pageSize siblingCount currentPage : Int)
    (htc : 0 ≤ totalCount) (hps : 0 < pageSize) (hsib : 0 ≤ siblingCount)
    (hcp : 0 < currentPage)
    (hspan : 5 + 2 * siblingCount < totalPageCount totalCount pageSize)
    (hleft : 2 < max (currentPage - siblingCount) 1)
    (hright : totalPageCount totalCount pageSize - 1 ≤
      min (currentPage + siblingCount) (totalPageCount totalCount pageSize)) :
    usePagination totalCount pageSize siblingCount currentPage =
      [PageEntry.num 1, DOTS] ++
        (range (totalPageCount totalCount pageSize - (3 + 2 * siblingCount) + 1)
          (totalPageCount totalCount pageSize)).map PageEntry.num :=
  usePagination_caseB totalCount pageSize siblingCount currentPage hspan hleft
    (not_lt.mpr hright)

/-- C4 witness: `currentPage = 100` with `totalPages = 100` and `siblingCount = 4`
yields `[1, DOTS, 90..100]`. -/
theorem usePagination_right_window_witness :
    usePagination 2400 24 4 100 =
      [PageEntry.num 1, DOTS, PageEntry.num 90, PageEntry.num 91, PageEntry.num 92,
       PageEntry.num 93, PageEntry.num 94, PageEntry.num 95, PageEntry.num 96,
       PageEntry.num 97, PageEntry.num 98, PageEntry.num 99, PageEntry.num 100] := by
  have h := usePagination_right_window 2400 24 4 100 (by decide) (by decide) (by decide)
    (by decide) (by decide) (by decide) (by decide)
  rw [h]
  rfl

/-- C7: whenever `totalPages > 5 + 2*siblingCount`, at least one of
`shouldShowLeftDots` and `shouldShowRightDots` holds, so one of the three dot
cases of `usePagination` returns first and the trailing fallback is
unreachable. -/
theorem shouldShowDots_total (totalCount pageSize siblingCount currentPage : Int)
    (htc : 0 ≤ totalCount) (hps : 0 < pageSize) (hsib : 0 ≤ siblingCount)
    (hcp : 0 < currentPage)
    (hspan : 5 + 2 * siblingCount < totalPageCount totalCount pageSize) :
    shouldShowLeftDots siblingCount currentPage ∨
      shouldShowRightDots totalCount pageSize siblingCount currentPage := by
  unfold shouldShowLeftDots shouldShowRightDots leftSiblingIndex rightSiblingIndex
  omega

/-- C7 witness: at `totalCount=2400, pageSize=24, siblingCount=4, currentPage=1`
one of the dot conditions holds. -/
theorem shouldShowDots_total_witness :
    shouldShowLeftDots 4 1 ∨ shouldShowRightDots 2400 24 4 1 :=
  shouldShowDots_total 2400 24 4 1 (by decide) (by decide) (by decide) (by decide)
    (by decide)

/-- C5: whenever `totalPages = ceil(totalCount/pageSize) > 0`, the sequence
returned by `usePagination` is non-empty, its first entry is the page number 1
and its last entry is the page number `totalPages`. -/
theorem usePagination_first_last (totalCount pageSize siblingCount currentPage : Int)
    (htc : 0 ≤ totalCount) (hps : 0 < pageSize) (hsib : 0 ≤ siblingCount)
    (hcp : 0 < currentPage) (htp : 0 < totalPageCount totalCount pageSize) :
    usePagination totalCount pageSize siblingCount currentPage ≠ [] ∧
    (usePagination totalCount pageSize siblingCount currentPage).head? =
      some (PageEntry.num 1) ∧
    (usePagination totalCount pageSize siblingCount currentPage).getLast? =
      some (PageEntry.num (totalPageCount totalCount pageSize)) := by
  by_cases h1 : totalPageCount totalCount pageSize ≤ totalPageNumbersToShow siblingCount
  · rw [usePagination_case1 totalCount pageSize siblingCount currentPage h1]
    refine ⟨?_, map_num_head 1 _ (by omega), map_num_getLast 1 _ (by omega)⟩
    rw [range_cons 1 _ (by omega)]
    simp
  · have h1' : 5 + 2 * siblingCount < totalPageCount totalCount pageSize := by
      unfold totalPageNumbersToShow at h1
      omega
    by_cases hL : shouldShowLeftDots siblingCount currentPage
    · by_cases hR : shouldShowRightDots totalCount pageSize siblingCount currentPage
      · rw [usePagination_caseC totalCount pageSize siblingCount currentPage h1' hL hR]
        exact ⟨by simp, rfl, getLast_concat2 _ _ _⟩
      · rw [usePagination_caseB totalCount pageSize siblingCount currentPage h1' hL hR]
        exact ⟨by simp, rfl, getLast_append_range _ _ _ (by omega)⟩
    · by_cases hR : shouldShowRightDots totalCount pageSize siblingCount currentPage
      · rw [usePagination_caseA totalCount pageSize siblingCount currentPage h1' hL hR]
        refine ⟨by simp, ?_, getLast_concat2 _ _ _⟩
        rw [range_cons 1 _ (by omega)]
        rfl
      · rw [usePagination_fallback totalCount pageSize siblingCount currentPage h1' hL hR]
        refine ⟨?_, map_num_head 1 _ (by omega), map_num_getLast 1 _ (by omega)⟩
        rw [range_cons 1 _ (by omega)]
        simp

/-- C5 witness: at `totalCount=2400, pageSize=24, siblingCount=4,
currentPage=50` the range is non-empty, starts at page 1 and ends at page
`totalPages = 100`. -/
theorem usePagination_first_last_witness :
    usePagination 2400 24 4 50 ≠ [] ∧
    (usePagination 2400 24 4 50).head? = some (PageEntry.num 1) ∧
    (usePagination 2400 24 4 50).getLast? =
      some (PageEntry.num (totalPageCount 2400 24)) :=
  usePagination_first_last 2400 24 4 50 (by decide) (by decide) (by decide) (by decide)
    (by decide)

/-- C6: the sequence returned by `usePagination` is a well-formed page window:
its numeric entries are strictly increasing, no two ellipsis entries are
adjacent, and whenever it contains an ellipsis its first and last entries are
the concrete page numbers 1 and `totalPages`. -/
theorem usePagination_window_invariants (totalCount pageSize siblingCount currentPage : Int)
    (htc : 0 ≤ totalCount) (hps : 0 < pageSize) (hsib : 0 ≤ siblingCount)
    (hcp : 0 < currentPage) :
    List.Chain' (· < ·)
      (entryNums (usePagination totalCount pageSize siblingCount currentPage)) ∧
    List.Chain' (fun a b => ¬(a = DOTS ∧ b = DOTS))
      (usePagination totalCount pageSize siblingCount currentPage) ∧
    (DOTS ∈ usePagination totalCount pageSize siblingCount currentPage →
      (usePagination totalCount pageSize siblingCount currentPage).head? =
        some (PageEntry.num 1) ∧
      (usePagination totalCount pageSize siblingCount currentPage).getLast? =
        some (PageEntry.num (totalPageCount totalCount pageSize))) := by
  by_cases h1 : totalPageCount totalCount pageSize ≤ totalPageNumbersToShow siblingCount
  · rw [usePagination_case1 totalCount pageSize siblingCount currentPage h1]
    refine ⟨?_, noDD_map_num _, fun hd => absurd hd (dots_not_mem_map_num _)⟩
    rw [entryNums_map_num]
    exact range_chain _ _
  · have h1' : 5 + 2 * siblingCount < totalPageCount totalCount pageSize := by
      unfold totalPageNumbersToShow at h1
      omega
    by_cases hL : shouldShowLeftDots siblingCount currentPage
    · have hL' : 2 < max (currentPage - siblingCount) 1 := hL
      by_cases hR : shouldShowRightDots totalCount pageSize siblingCount currentPage
      · -- Case C: both dot blocks
        have hR' : min (currentPage + siblingCount) (totalPageCount totalCount pageSize) <
            totalPageCount totalCount pageSize - 1 := hR
        have hlsrs : leftSiblingIndex siblingCount currentPage ≤
            rightSiblingIndex totalCount pageSize siblingCount currentPage := by
          unfold leftSiblingIndex rightSiblingIndex
          omega
        rw [usePagination_caseC totalCount pageSize siblingCount currentPage h1' hL hR]
        refine ⟨?_, ?_, fun _ => ⟨rfl, getLast_concat2 _ _ _⟩⟩
        · rw [entryNums_append, entryNums_append, entryNums_map_num]
          have e1 : entryNums [PageEntry.num 1, DOTS] = [1] := rfl
          have e2 : entryNums [DOTS,
              PageEntry.num (totalPageCount totalCount pageSize)] =
              [totalPageCount totalCount pageSize] := rfl
          rw [e1, e2]
          refine List.chain'_append.mpr ⟨List.chain'_append.mpr
            ⟨List.chain'_singleton 1, range_chain _ _, ?_⟩, List.chain'_singleton _, ?_⟩
          · intro x hx y hy
            have hx1 : (1 : Int) = x := by simpa using hx
            have hy1 := (mem_range_iff _ _ y).mp (List.mem_of_mem_head? hy)
            unfold leftSiblingIndex at hy1
            omega
          · intro x hx y hy
            have hy1 : totalPageCount totalCount pageSize = y := by simpa using hy
            have hx1 := List.mem_of_mem_getLast? hx
            rw [List.mem_append] at hx1
            rcases hx1 with hx1 | hx1
            · have : x = 1 := by simpa using hx1
              omega
            · have := (mem_range_iff _ _ x).mp hx1
              unfold leftSiblingIndex rightSiblingIndex at this
              omega
        · refine List.chain'_append.mpr ⟨List.chain'_append.mpr
            ⟨?_, noDD_map_num _, ?_⟩, ?_, ?_⟩
          · simp [List.chain'_pair, DOTS]
          · intro x hx y hy hand
            exact dots_not_mem_map_num _ (hand.2 ▸ List.mem_of_mem_head? hy)
          · simp [List.chain'_pair, DOTS]
          · intro x hx y hy hand
            rw [getLast_append_range _ _ _ hlsrs] at hx
            have hx1 : PageEntry.num
                (rightSiblingIndex totalCount pageSize siblingCount currentPage) = x := by
              simpa using hx
            rw [← hx1] at hand
            exact PageEntry.noConfusion hand.1
      · -- Case B: left dots only
        have hR' : ¬ min (currentPage + siblingCount) (totalPageCount totalCount pageSize) <
            totalPageCount totalCount pageSize - 1 := hR
        rw [usePagination_caseB totalCount pageSize siblingCount currentPage h1' hL hR]
        refine ⟨?_, ?_, fun _ => ⟨rfl, getLast_append_range _ _ _ (by omega)⟩⟩
        · rw [entryNums_append, entryNums_map_num]
          have e1 : entryNums [PageEntry.num 1, DOTS] = [1] := rfl
          rw [e1]
          refine List.chain'_append.mpr ⟨List.chain'_singleton 1, range_chain _ _, ?_⟩
          intro x hx y hy
          have hx1 : (1 : Int) = x := by simpa using hx
          have hy1 := (mem_range_iff _ _ y).mp (List.mem_of_mem_head? hy)
          omega
        · refine List.chain'_append.mpr ⟨?_, noDD_map_num _, ?_⟩
          · simp [List.chain'_pair, DOTS]
          · intro x hx y hy hand
            exact dots_not_mem_map_num _ (hand.2 ▸ List.mem_of_mem_head? hy)
    · have hL' : ¬ 2 < max (currentPage - siblingCount) 1 := hL
      by_cases hR : shouldShowRightDots totalCount pageSize siblingCount currentPage
      · -- Case A: right dots only
        rw [usePagination_caseA totalCount pageSize siblingCount currentPage h1' hL hR]
        refine ⟨?_, ?_, fun _ => ⟨?_, getLast_concat2 _ _ _⟩⟩
        · rw [entryNums_append, entryNums_map_num]
          have e2 : entryNums [DOTS,
              PageEntry.num (totalPageCount totalCount pageSize)] =
              [totalPageCount totalCount pageSize] := rfl
          rw [e2]
          refine List.chain'_append.mpr ⟨range_chain _ _, List.chain'_singleton _, ?_⟩
          intro x hx y hy
          have hy1 : totalPageCount totalCount pageSize = y := by simpa using hy
          have hx1 := (mem_range_iff _ _ x).mp (List.mem_of_mem_getLast? hx)
          omega
        · refine List.chain'_append.mpr ⟨noDD_map_num _, ?_, ?_⟩
          · simp [List.chain'_pair, DOTS]
          · intro x hx y hy hand
            exact dots_not_mem_map_num _ (hand.1 ▸ List.mem_of_mem_getLast? hx)
        · rw [range_cons 1 _ (by omega)]
          rfl
      · -- fallback branch
        rw [usePagination_fallback totalCount pageSize siblingCount currentPage h1' hL hR]
        refine ⟨?_, noDD_map_num _, fun hd => absurd hd (dots_not_mem_map_num _)⟩
        rw [entryNums_map_num]
        exact range_chain _ _

/-- C6 witness: the invariants hold at
`totalCount=2400, pageSize=24, siblingCount=4, currentPage=50`. -/
theorem usePagination_window_invariants_witness :
    List.Chain' (· < ·) (entryNums (usePagination 2400 24 4 50)) ∧
    List.Chain' (fun a b => ¬(a = DOTS ∧ b = DOTS)) (usePagination 2400 24 4 50) ∧
    (DOTS ∈ usePagination 2400 24 4 50 →
      (usePagination 2400 24 4 50).head? = some (PageEntry.num 1) ∧
      (usePagination 2400 24 4 50).getLast? =
        some (PageEntry.num (totalPageCount 2400 24))) :=
  usePagination_window_invariants 2400 24 4 50 (by decide) (by decide) (by decide)
    (by decide)

/-- C9: when `1 ≤ currentPage ≤ totalPages`, the sequence returned by
`usePagination` contains the current page as one of its numeric entries. -/
theorem usePagination_mem_currentPage (totalCount pageSize siblingCount currentPage : Int)
    (htc : 0 ≤ totalCount) (hps : 0 < pageSize) (hsib : 0 ≤ siblingCount)
    (hcp : 1 ≤ currentPage)
    (hcp2 : currentPage ≤ totalPageCount totalCount pageSize) :
    PageEntry.num currentPage ∈
      usePagination totalCount pageSize siblingCount currentPage := by
  by_cases h1 : totalPageCount totalCount pageSize ≤ totalPageNumbersToShow siblingCount
  · rw [usePagination_case1 totalCount pageSize siblingCount currentPage h1]
    exact List.mem_map_of_mem _ ((mem_range_iff _ _ _).mpr ⟨hcp, hcp2⟩)
  · have h1' : 5 + 2 * siblingCount < totalPageCount totalCount pageSize := by
      unfold totalPageNumbersToShow at h1
      omega
    by_cases hL : shouldShowLeftDots siblingCount currentPage
    · by_cases hR : shouldShowRightDots totalCount pageSize siblingCount currentPage
      · rw [usePagination_caseC totalCount pageSize siblingCount currentPage h1' hL hR]
        refine List.mem_append.mpr (Or.inl (List.mem_append.mpr (Or.inr
          (List.mem_map_of_mem _ ((mem_range_iff _ _ _).mpr ⟨?_, ?_⟩)))))
        · unfold leftSiblingIndex
          omega
        · unfold rightSiblingIndex
          omega
      · rw [usePagination_caseB totalCount pageSize siblingCount currentPage h1' hL hR]
        refine List.mem_append.mpr (Or.inr
          (List.mem_map_of_mem _ ((mem_range_iff _ _ _).mpr ⟨?_, hcp2⟩)))
        have hR' : ¬ min (currentPage + siblingCount) (totalPageCount totalCount pageSize) <
            totalPageCount totalCount pageSize - 1 := hR
        omega
    · by_cases hR : shouldShowRightDots totalCount pageSize siblingCount currentPage
      · rw [usePagination_caseA totalCount pageSize siblingCount currentPage h1' hL hR]
        refine List.mem_append.mpr (Or.inl
          (List.mem_map_of_mem _ ((mem_range_iff _ _ _).mpr ⟨hcp, ?_⟩)))
        have hL' : ¬ 2 < max (currentPage - siblingCount) 1 := hL
        omega
      · rw [usePagination_fallback totalCount pageSize siblingCount currentPage h1' hL hR]
        exact List.mem_map_of_mem _ ((mem_range_iff _ _ _).mpr ⟨hcp, hcp2⟩)

/-- C9 witness: page 50 appears in the range computed at
`totalCount=2400, pageSize=24, siblingCount=4, currentPage=50`. -/
theorem usePagination_mem_currentPage_witness :
    PageEntry.num 50 ∈ usePagination 2400 24 4 50 :=
  usePagination_mem_currentPage 2400 24 4 50 (by decide) (by decide) (by decide)
    (by decide) (by decide)

/-- C10: every numeric entry emitted by `usePagination` lies in
`[1, totalPages]`, for every positive `currentPage`, clamped or not. -/
theorem usePagination_entries_bounded (totalCount pageSize siblingCount currentPage n : Int)
    (htc : 0 ≤ totalCount) (hps : 0 < pageSize) (hsib : 0 ≤ siblingCount)
    (hcp : 0 < currentPage)
    (hmem : PageEntry.num n ∈ usePagination totalCount pageSize siblingCount currentPage) :
    1 ≤ n ∧ n ≤ totalPageCount totalCount pageSize := by
  by_cases h1 : totalPageCount totalCount pageSize ≤ totalPageNumbersToShow siblingCount
  · rw [usePagination_case1 totalCount pageSize siblingCount currentPage h1] at hmem
    simp only [List.mem_map, PageEntry.num.injEq] at hmem
    obtain ⟨a, ha, rfl⟩ := hmem
    exact (mem_range_iff _ _ _).mp ha
  · have h1' : 5 + 2 * siblingCount < totalPageCount totalCount pageSize := by
      unfold totalPageNumbersToShow at h1
      omega
    by_cases hL : shouldShowLeftDots siblingCount currentPage
    · have hL' : 2 < max (currentPage - siblingCount) 1 := hL
      by_cases hR : shouldShowRightDots totalCount pageSize siblingCount currentPage
      · rw [usePagination_caseC totalCount pageSize siblingCount currentPage h1' hL hR] at hmem
        simp [DOTS, mem_range_iff] at hmem
        unfold leftSiblingIndex rightSiblingIndex at hmem
        omega
      · rw [usePagination_caseB totalCount pageSize siblingCount currentPage h1' hL hR] at hmem
        simp [DOTS, mem_range_iff] at hmem
        omega
    · have hL' : ¬ 2 < max (currentPage - siblingCount) 1 := hL
      by_cases hR : shouldShowRightDots totalCount pageSize siblingCount currentPage
      · rw [usePagination_caseA totalCount pageSize siblingCount currentPage h1' hL hR] at hmem
        simp [DOTS, mem_range_iff] at hmem
        omega
      · rw [usePagination_fallback totalCount pageSize siblingCount currentPage h1' hL hR] at hmem
        simp only [List.mem_map, PageEntry.num.injEq] at hmem
        obtain ⟨a, ha, rfl⟩ := hmem
        exact (mem_range_iff _ _ _).mp ha

/-- C10 witness: with the unclamped `currentPage = 1000` and `totalPages = 100`,
the emitted entry 95 lies within `[1, totalPages]`. -/
theorem usePagination_entries_bounded_witness :
    (1 : Int) ≤ 95 ∧ (95 : Int) ≤ totalPageCount 2400 24 :=
  usePagination_entries_bounded 2400 24 4 1000 95 (by decide) (by decide) (by decide)
    (by decide) (by decide)

/-! ### The ellipsis-click jump handlers -/

theorem scanBack_eq_findSome (l : List PageEntry) (d : Int) (c : Nat) :
    scanBackNumeric l d c = (((l.take c).reverse).findSome? entryNum).getD d := by
  induction c with
  | zero => rfl
  | succ c ih =>
    have hl0 : scanBackNumeric l d (c + 1) =
        (match l[c]? with
          | some (PageEntry.num n) => n
          | some PageEntry.dots => scanBackNumeric l d c
          | none => scanBackNumeric l d c) := rfl
    rw [List.take_succ, List.reverse_append, List.findSome?_append, hl0]
    cases hc : l[c]? with
    | none =>
      rw [ih]
      rfl
    | some e =>
      cases e with
      | num n => rfl
      | dots =>
        rw [ih]
        rfl

theorem scanFwd_eq_findSome (l : List PageEntry) (d : Int) :
    scanFwdNumeric l d = (l.findSome? entryNum).getD d := by
  induction l with
  | nil => rfl
  | cons e t ih =>
    cases e with
    | num n => rfl
    | dots => exact ih

/-- C8 counterexample: on the range produced at `totalCount=2400, pageSize=24,
siblingCount=4, currentPage=50` — which contains an ellipsis whose numeric
neighbors are 1 and 46 — the catalog handler's jump target is 2 while the
rounded midpoint of the neighbors is 24; so it is not the case that every
handler's target equals the midpoint of the neighboring numeric entries. -/
theorem catalog_jump_not_midpoint :
    handleImagePageChangeTarget (usePagination 2400 24 4 50) 100 = 2 ∧
    specJumpMidpoint (usePagination 2400 24 4 50) 100 = 24 ∧
    handleImagePageChangeTarget (usePagination 2400 24 4 50) 100 ≠
      specJumpMidpoint (usePagination 2400 24 4 50) 100 := by
  decide

/-- C8 amended: for every pagination range and total page count, the main
page handler's jump target equals the rounded midpoint of the numeric entries
neighboring the first ellipsis, while the catalog page handler's jump target
is instead one past the preceding numeric entry (`prevNumeric + 1`). -/
theorem jump_target_characterization (l : List PageEntry) (totalPages : Int) :
    handlePageChangeTarget l totalPages = specJumpMidpoint l totalPages ∧
    handleImagePageChangeTarget l totalPages = specPrevNeighbor l + 1 := by
  constructor
  · unfold handlePageChangeTarget specJumpMidpoint specPrevNeighbor specNextNeighbor
    rw [scanBack_eq_findSome, scanFwd_eq_findSome]
  · unfold handleImagePageChangeTarget specPrevNeighbor
    rw [scanBack_eq_findSome]
    exact ite_self _

end DRLib
